import Mathlib

/-
Verification of the typeit repository (src/typeit.catted.js): a shallow
embedding of the traversal engine (bfsTraversal / dfsTraversal) and of the
TypeGuard ordered container, with theorems checking the design document's
claims against it.
-/

set_option autoImplicit false

namespace TypeIt

/--
A JavaScript runtime value as the engine observes it.  `obj` keeps only the
own enumerable property values in iteration order, because the engine (and
every claim) consults an object solely through `Object.values(item)`; keys
never influence any behaviour under scrutiny.  RegExp, function, symbol and
bigint values play no part in any claim and are omitted.  Numbers are kept
as integers: every numeric literal in the spec and the claims is integral.
-/
inductive JSVal where
  | str (s : String)
  | num (n : Int)
  | bool (b : Bool)
  | null
  | undef
  | arr (elems : List JSVal)
  | obj (vals : List JSVal)

mutual

/-- The number of nodes of a value's tree, each composite counting itself. -/
def sizeJ : JSVal → Nat
  | .str _ => 1
  | .num _ => 1
  | .bool _ => 1
  | .null => 1
  | .undef => 1
  | .arr l => 1 + sizeListJ l
  | .obj l => 1 + sizeListJ l

/-- Total node count of a list of values. -/
def sizeListJ : List JSVal → Nat
  | [] => 0
  | v :: vs => sizeJ v + sizeListJ vs

end

/--
The JavaScript `typeof` operator restricted to the modelled values.
`typeof null` is "object", and arrays and plain objects are both "object".
-/
def jsTypeof : JSVal → String
  | .str _ => "string"
  | .num _ => "number"
  | .bool _ => "boolean"
  | .null => "object"
  | .undef => "undefined"
  | .arr _ => "object"
  | .obj _ => "object"

/--
The `typeEnum` argument of the traversal functions: a JavaScript object seen
as an association list from property name to a one-argument boolean test, in
property-insertion order.
-/
abbrev TypeEnum := List (String × (JSVal → Bool))

/-- First-match property lookup on a `TypeEnum` object. -/
def lookupPred : TypeEnum → String → Option (JSVal → Bool)
  | [], _ => none
  | (k, f) :: rest, name => if k = name then some f else lookupPred rest name

/--
Errors a traversal can raise.  `notAFunction name` models the TypeError
thrown by `typeEnum.name(item)` when the property `name` is absent.
`outOfFuel` is the embedding's sentinel for non-termination (cyclic input);
it is unreachable for the finite trees `JSVal` can express when the fuel is
at least `sizeJ` of the root, which is how the top-level wrappers call it.
-/
inductive TravError where
  | notAFunction (name : String)
  | outOfFuel
deriving DecidableEq

/--
`callMethod te name v` models the call `typeEnum.name(v)`: a TypeError if
the property is absent, otherwise the tester's verdict.
-/
def callMethod (te : TypeEnum) (name : String) (v : JSVal) : Except TravError Bool :=
  match lookupPred te name with
  | none => .error (.notAFunction name)
  | some f => .ok (f v)

/--
The scalar branch shared by both traversals (typeit.catted.js lines
267-272 and 289-294): test `isString`, then `isNumber`, then `isBoolean`,
then `isRegExp`, short-circuiting at the first match; the result says
whether the leaf is pushed onto the output.
-/
def classifyLeaf (te : TypeEnum) (v : JSVal) : Except TravError Bool :=
  match callMethod te "isString" v with
  | .error e => .error e
  | .ok true => .ok true
  | .ok false =>
    match callMethod te "isNumber" v with
    | .error e => .error e
    | .ok true => .ok true
    | .ok false =>
      match callMethod te "isBoolean" v with
      | .error e => .error e
      | .ok true => .ok true
      | .ok false =>
        match callMethod te "isRegExp" v with
        | .error e => .error e
        | .ok b => .ok b

/--
The loop of `bfsTraversal` (lines 260-273).  The queue's front is the list
head: `queue.shift()` removes the head, and `queue.push(...item)` appends
the children at the back in original order.  Fuel decreases once per
dequeued item; the wrapper supplies enough for any finite tree.
-/
def bfsGo (te : TypeEnum) : Nat → List JSVal → List JSVal → Except TravError (List JSVal)
  | _, [], result => .ok result
  | 0, _ :: _, _ => .error .outOfFuel
  | fuel + 1, item :: rest, result =>
    match item with
    | .arr elems => bfsGo te fuel (rest ++ elems) result
    | .obj vals => bfsGo te fuel (rest ++ vals) result
    | leaf =>
      match classifyLeaf te leaf with
      | .error e => .error e
      | .ok true => bfsGo te fuel rest (result ++ [leaf])
      | .ok false => bfsGo te fuel rest result

/--
The loop of `dfsTraversal` (lines 282-295).  The stack's top is the list
head, so `stack.pop()` removes the head and `stack.push(...item)` — which
appends the children in original order at the JavaScript array's end, the
top — prepends them reversed here: the rightmost child ends up on top.
-/
def dfsGo (te : TypeEnum) : Nat → List JSVal → List JSVal → Except TravError (List JSVal)
  | _, [], result => .ok result
  | 0, _ :: _, _ => .error .outOfFuel
  | fuel + 1, item :: rest, result =>
    match item with
    | .arr elems => dfsGo te fuel (elems.reverse ++ rest) result
    | .obj vals => dfsGo te fuel (vals.reverse ++ rest) result
    | leaf =>
      match classifyLeaf te leaf with
      | .error e => .error e
      | .ok true => dfsGo te fuel rest (result ++ [leaf])
      | .ok false => dfsGo te fuel rest result

/--
`bfsTraversal(obj, typeEnum)` (lines 256-275): FIFO flattening of the
structure with type-filtered leaf collection.  The fuel `sizeJ obj`
equals the number of loop iterations of the original while-loop on this
finite input tree, so the `outOfFuel` branch is never taken.
-/
def bfsTraversal (obj : JSVal) (te : TypeEnum) : Except TravError (List JSVal) :=
  bfsGo te (sizeJ obj) [obj] []

/-- `dfsTraversal(obj, typeEnum)` (lines 278-297): the LIFO counterpart. -/
def dfsTraversal (obj : JSVal) (te : TypeEnum) : Except TravError (List JSVal) :=
  dfsGo te (sizeJ obj) [obj] []

/--
Modelled from the spec: the default predicate set of §4.1/§6 ("recognizes
at least: string, number, boolean, regular-expression") is not present in
src/ — the `typeEnum` argument is caller-supplied.  Tester for string
leaves, `typeof v === "string"`.
-/
def isStringPred (v : JSVal) : Bool := jsTypeof v = "string"

/-- Modelled from the spec: default tester for number leaves. -/
def isNumberPred (v : JSVal) : Bool := jsTypeof v = "number"

/-- Modelled from the spec: default tester for boolean leaves. -/
def isBooleanPred (v : JSVal) : Bool := jsTypeof v = "boolean"

/--
Modelled from the spec: default tester for regular-expression leaves.  The
value model carries no RegExp objects (a genuine RegExp has typeof
"object" and would take the composite branch of the engine anyway), so
this tester matches nothing.
-/
def isRegExpPred (_ : JSVal) : Bool := false

/-- The default predicate set with all four names the engine queries. -/
def stdTypeEnum : TypeEnum :=
  [("isString", isStringPred), ("isNumber", isNumberPred),
   ("isBoolean", isBooleanPred), ("isRegExp", isRegExpPred)]

/-- A tester recognising exactly the `null` leaf. -/
def isNullPred : JSVal → Bool
  | .null => true
  | _ => false

/-- The default set extended by a caller with a new predicate, `isNull`. -/
def typeEnumWithNull : TypeEnum := stdTypeEnum ++ [("isNull", isNullPred)]

/-- A predicate set containing only a number tester. -/
def typeEnumOnlyNumber : TypeEnum := [("isNumber", isNumberPred)]

/--
A predicate set in which every name the engine queries is present but only
the number tester can match.
-/
def typeEnumNumberOnlyFour : TypeEnum :=
  [("isString", fun _ => false), ("isNumber", isNumberPred),
   ("isBoolean", fun _ => false), ("isRegExp", fun _ => false)]

/-- The root structure `[[1,2],[3,4]]` of claims P2/P3. -/
def rootNested : JSVal :=
  .arr [.arr [.num 1, .num 2], .arr [.num 3, .num 4]]

/-
The TypeGuard container.  JavaScript arrays are mutable objects handled by
reference, and the claims about the container distinguish aliasing (the
constructor keeps the caller's array) from copying (`clone` does not), so
the backing arrays live in an explicit store: a `TypeGuard` holds only the
reference (`data`) of its backing array.  Elements themselves are plain
`JSVal`s: no claim mutates an element in place.
-/

/-- A reference to an array in the store. -/
abbrev ArrRef := Nat

/-- Reading slot `r` of the store; a dangling reference reads as empty. -/
def lookupArr : List (List JSVal) → Nat → List JSVal
  | [], _ => []
  | l :: _, 0 => l
  | _ :: rest, r + 1 => lookupArr rest r

/-- Overwriting slot `r`; writing through a dangling reference is a no-op. -/
def setArr : List (List JSVal) → Nat → List JSVal → List (List JSVal)
  | [], _, _ => []
  | _ :: rest, 0, l => l :: rest
  | x :: rest, r + 1, l => x :: setArr rest r l

/-- The store of allocated JavaScript arrays, addressed by `ArrRef`. -/
structure Store where
  arrays : List (List JSVal)

/-- Dereference an array. -/
def Store.read (s : Store) (r : ArrRef) : List JSVal := lookupArr s.arrays r

/-- Mutate an array in place. -/
def Store.write (s : Store) (r : ArrRef) (l : List JSVal) : Store :=
  ⟨setArr s.arrays r l⟩

/-- Allocate a fresh array holding `l`; returns the new store and its ref. -/
def Store.alloc (s : Store) (l : List JSVal) : Store × ArrRef :=
  (⟨s.arrays ++ [l]⟩, s.arrays.length)

/--
Errors the TypeGuard class can raise: the TypeError of `typeGuard` (with
the expected and the received `typeof` strings of its message), the
RangeError of the index checks, and the constructor's TypeError for a
non-array-like argument.
-/
inductive TGError where
  | typeMismatch (expected received : String)
  | indexOutOfRange
  | invalidArgument
deriving DecidableEq

/--
The constructor's argument: either a reference to an existing array (the
caller's array object) or some non-array value.
-/
inductive CtorArg where
  | arrRef (r : ArrRef)
  | nonArray (v : JSVal)

/--
The TypeGuard class instance (line 110): its single field `data` is the
reference to the backing array.
-/
structure TypeGuard where
  data : ArrRef

/--
`new TypeGuard(initialValues)` (lines 111-116): rejects a non-array-like
argument (`isArrayLike`, line 107, is `Array.isArray`), otherwise stores
the caller's array itself — `this.data = initialValues` copies the
reference, not the elements.
-/
def TypeGuard.construct : CtorArg → Except TGError TypeGuard
  | .arrRef r => .ok ⟨r⟩
  | .nonArray _ => .error .invalidArgument

/--
The `typeGuard` method (lines 119-123): a TypeError exactly when
`typeof value !== expectedType`.
-/
def typeGuardCheck (value : JSVal) (expectedType : String) : Except TGError Unit :=
  if jsTypeof value ≠ expectedType then
    .error (.typeMismatch expectedType (jsTypeof value))
  else
    .ok ()

/--
`push(element)` (lines 126-130): `typeGuard(element, "number")` — the
expected type is the hard-coded string "number" — then append.  The pair
returned by each mutating method is (outcome, store after the call); a
thrown error leaves the store as it was at the throw.
-/
def TypeGuard.push (tg : TypeGuard) (s : Store) (element : JSVal) :
    Except TGError Unit × Store :=
  match typeGuardCheck element "number" with
  | .error e => (.error e, s)
  | .ok _ => (.ok (), s.write tg.data (s.read tg.data ++ [element]))

/--
`pop()` (lines 133-136): `this.data.pop()` — removes and returns the last
element; on an empty array it returns `undefined` and changes nothing.
-/
def TypeGuard.pop (tg : TypeGuard) (s : Store) : JSVal × Store :=
  match s.read tg.data with
  | [] => (JSVal.undef, s)
  | x :: rest =>
    (((x :: rest).getLast?).getD JSVal.undef,
      s.write tg.data (x :: rest).dropLast)

/--
`insertAt(index, element)` (lines 139-146): RangeError unless
`0 <= index <= length`, then the `typeGuard` number check, then
`splice(index, 0, element)` — insert before `index`.
-/
def TypeGuard.insertAt (tg : TypeGuard) (s : Store) (index : Int) (element : JSVal) :
    Except TGError Unit × Store :=
  if index < 0 ∨ index > ((s.read tg.data).length : Int) then
    (.error .indexOutOfRange, s)
  else
    match typeGuardCheck element "number" with
    | .error e => (.error e, s)
    | .ok _ =>
      let l := s.read tg.data
      (.ok (), s.write tg.data (l.take index.toNat ++ element :: l.drop index.toNat))

/--
`removeAt(index)` (lines 149-154): RangeError unless `0 <= index < length`,
then `splice(index, 1)[0]` — remove and return the element at `index`.
-/
def TypeGuard.removeAt (tg : TypeGuard) (s : Store) (index : Int) :
    Except TGError JSVal × Store :=
  let l := s.read tg.data
  if index < 0 ∨ index ≥ (l.length : Int) then
    (.error .indexOutOfRange, s)
  else
    (.ok (l.getD index.toNat JSVal.undef),
      s.write tg.data (l.take index.toNat ++ l.drop (index.toNat + 1)))

/--
`at(index)` (lines 157-159): `this.data[index]`, which is `undefined` for
any index outside the array.  (The method is named `at` in the source; that
word is a reserved keyword here.)
-/
def TypeGuard.atIndex (tg : TypeGuard) (s : Store) (index : Int) : JSVal :=
  if index < 0 then JSVal.undef
  else (s.read tg.data).getD index.toNat JSVal.undef

/-- `length()` (lines 162-164). -/
def TypeGuard.length (tg : TypeGuard) (s : Store) : Nat :=
  (s.read tg.data).length

/--
`clone()` (lines 194-196): `new TypeGuard([...this.data])` — allocates a
fresh array holding a shallow copy of the elements and wraps it.
-/
def TypeGuard.clone (tg : TypeGuard) (s : Store) : TypeGuard × Store :=
  let z := s.alloc (s.read tg.data)
  (⟨z.2⟩, z.1)

mutual

/--
The string JavaScript's `Array.prototype.join` uses for one element:
empty for `null`/`undefined`, otherwise `String(element)` — which for a
nested array is its own comma-join and for a plain object the constant
"[object Object]".
-/
def jsJoinElem : JSVal → String
  | .str s => s
  | .num n => toString n
  | .bool b => if b then "true" else "false"
  | .null => ""
  | .undef => ""
  | .arr l => jsJoinList l
  | .obj _ => "[object Object]"

/-- `join(",")` of a nested array's elements. -/
def jsJoinList : List JSVal → String
  | [] => ""
  | [v] => jsJoinElem v
  | v :: w :: rest => jsJoinElem v ++ "," ++ jsJoinList (w :: rest)

end

/--
`toString()` (lines 206-208): the template string
`[` + `this.data.join(', ')` + `]`.
-/
def TypeGuard.toStr (tg : TypeGuard) (s : Store) : String :=
  "[" ++ String.intercalate ", " ((s.read tg.data).map jsJoinElem) ++ "]"

/-- Whether a container call returned normally rather than throwing. -/
def exceptIsOk {α : Type} : Except TGError α → Bool
  | .ok _ => true
  | .error _ => false

/-- A store holding the single caller array `[10, 20, 30]` at reference 0. -/
def store3 : Store := ⟨[[.num 10, .num 20, .num 30]]⟩

/-- The container built over that array: `new TypeGuard([10, 20, 30])`. -/
def tg3 : TypeGuard := ⟨0⟩

/-- A store holding the single caller array `["a"]` at reference 0. -/
def storeA : Store := ⟨[[.str "a"]]⟩

/-
Store lemmas.
-/

theorem lookupArr_setArr_self (a : List (List JSVal)) (r : Nat) (l : List JSVal)
    (h : r < a.length) : lookupArr (setArr a r l) r = l := by
  induction a generalizing r with
  | nil => simp at h
  | cons x xs ih =>
    cases r with
    | zero => rfl
    | succ n => exact ih n (by simpa using h)

theorem lookupArr_setArr_ne (a : List (List JSVal)) (r r' : Nat) (l : List JSVal)
    (h : r ≠ r') : lookupArr (setArr a r l) r' = lookupArr a r' := by
  induction a generalizing r r' with
  | nil => rfl
  | cons x xs ih =>
    cases r with
    | zero =>
      cases r' with
      | zero => exact absurd rfl h
      | succ m => rfl
    | succ n =>
      cases r' with
      | zero => rfl
      | succ m => exact ih n m (fun hc => h (by rw [hc]))

theorem lookupArr_append_length (a : List (List JSVal)) (l : List JSVal) :
    lookupArr (a ++ [l]) a.length = l := by
  induction a with
  | nil => rfl
  | cons x xs ih => simpa [lookupArr] using ih

theorem lookupArr_ge (a : List (List JSVal)) (r : Nat) (h : a.length ≤ r) :
    lookupArr a r = [] := by
  induction a generalizing r with
  | nil => rfl
  | cons x xs ih =>
    cases r with
    | zero => simp at h
    | succ n => exact ih n (by simpa using h)

/-- Writing one array leaves every other array of the store unchanged. -/
theorem read_write_other (t : Store) (r r' : ArrRef) (l : List JSVal) (h : r ≠ r') :
    (t.write r l).read r' = t.read r' :=
  lookupArr_setArr_ne t.arrays r r' l h

/-- Reading back an array just written through a live reference. -/
theorem read_write_self (t : Store) (r : ArrRef) (l : List JSVal)
    (h : r < t.arrays.length) : (t.write r l).read r = l :=
  lookupArr_setArr_self t.arrays r l h

/-
Frame lemmas: each mutating container method writes at most its own
backing array.
-/

theorem push_frame (tg : TypeGuard) (t : Store) (e : JSVal) (r : ArrRef)
    (h : tg.data ≠ r) : ((tg.push t e).2).read r = t.read r := by
  unfold TypeGuard.push
  cases typeGuardCheck e "number" with
  | error er => rfl
  | ok u => exact read_write_other t tg.data r _ h

theorem pop_frame (tg : TypeGuard) (t : Store) (r : ArrRef)
    (h : tg.data ≠ r) : ((tg.pop t).2).read r = t.read r := by
  unfold TypeGuard.pop
  cases t.read tg.data with
  | nil => rfl
  | cons x rest => exact read_write_other t tg.data r _ h

theorem insertAt_frame (tg : TypeGuard) (t : Store) (i : Int) (e : JSVal) (r : ArrRef)
    (h : tg.data ≠ r) : ((tg.insertAt t i e).2).read r = t.read r := by
  unfold TypeGuard.insertAt
  split
  · rfl
  · cases typeGuardCheck e "number" with
    | error er => rfl
    | ok u => exact read_write_other t tg.data r _ h

theorem removeAt_frame (tg : TypeGuard) (t : Store) (i : Int) (r : ArrRef)
    (h : tg.data ≠ r) : ((tg.removeAt t i).2).read r = t.read r := by
  unfold TypeGuard.removeAt
  dsimp only
  split
  · rfl
  · exact read_write_other t tg.data r _ h

/-
Congruence of the traversal engine in the predicate set: only the four
property names `isString`, `isNumber`, `isBoolean`, `isRegExp` are ever
consulted.
-/

theorem classifyLeaf_congr (te te' : TypeEnum)
    (h1 : lookupPred te "isString" = lookupPred te' "isString")
    (h2 : lookupPred te "isNumber" = lookupPred te' "isNumber")
    (h3 : lookupPred te "isBoolean" = lookupPred te' "isBoolean")
    (h4 : lookupPred te "isRegExp" = lookupPred te' "isRegExp")
    (v : JSVal) : classifyLeaf te v = classifyLeaf te' v := by
  unfold classifyLeaf callMethod
  rw [h1, h2, h3, h4]

theorem bfsGo_congr (te te' : TypeEnum)
    (h1 : lookupPred te "isString" = lookupPred te' "isString")
    (h2 : lookupPred te "isNumber" = lookupPred te' "isNumber")
    (h3 : lookupPred te "isBoolean" = lookupPred te' "isBoolean")
    (h4 : lookupPred te "isRegExp" = lookupPred te' "isRegExp") :
    ∀ (fuel : Nat) (queue result : List JSVal),
      bfsGo te fuel queue result = bfsGo te' fuel queue result := by
  intro fuel
  induction fuel with
  | zero =>
    intro queue result
    cases queue <;> rfl
  | succ n ih =>
    intro queue result
    cases queue with
    | nil => rfl
    | cons item rest =>
      cases item
      case arr elems => exact ih _ _
      case obj vals => exact ih _ _
      all_goals (
        simp only [bfsGo]
        rw [classifyLeaf_congr te te' h1 h2 h3 h4]
        generalize classifyLeaf te' _ = res
        cases res with
        | error e => rfl
        | ok b => cases b <;> exact ih _ _)

theorem dfsGo_congr (te te' : TypeEnum)
    (h1 : lookupPred te "isString" = lookupPred te' "isString")
    (h2 : lookupPred te "isNumber" = lookupPred te' "isNumber")
    (h3 : lookupPred te "isBoolean" = lookupPred te' "isBoolean")
    (h4 : lookupPred te "isRegExp" = lookupPred te' "isRegExp") :
    ∀ (fuel : Nat) (stack result : List JSVal),
      dfsGo te fuel stack result = dfsGo te' fuel stack result := by
  intro fuel
  induction fuel with
  | zero =>
    intro stack result
    cases stack <;> rfl
  | succ n ih =>
    intro stack result
    cases stack with
    | nil => rfl
    | cons item rest =>
      cases item
      case arr elems => exact ih _ _
      case obj vals => exact ih _ _
      all_goals (
        simp only [dfsGo]
        rw [classifyLeaf_congr te te' h1 h2 h3 h4]
        generalize classifyLeaf te' _ = res
        cases res with
        | error e => rfl
        | ok b => cases b <;> exact ih _ _)

/-
Claim theorems.
-/

/--
C1 counterexample: for the root `[[1,2],[3,4]]` and the default predicate
set, `dfsTraversal` returns `[4,3,2,1]` — not `[3,4,1,2]` as claimed.  The
stack pops its topmost element, so within each composite the children are
also visited rightmost-first, not only across composites.
-/
theorem dfs_order_counterexample :
    dfsTraversal rootNested stdTypeEnum
      = Except.ok [JSVal.num 4, JSVal.num 3, JSVal.num 2, JSVal.num 1]
  ∧ dfsTraversal rootNested stdTypeEnum
      ≠ Except.ok [JSVal.num 3, JSVal.num 4, JSVal.num 1, JSVal.num 2] := by
  refine ⟨rfl, fun hcontra => ?_⟩
  have hval : dfsTraversal rootNested stdTypeEnum
      = Except.ok [JSVal.num 4, JSVal.num 3, JSVal.num 2, JSVal.num 1] := rfl
  rw [hval] at hcontra
  simp at hcontra

/--
C1 amended: for the root `[[1,2],[3,4]]` and a predicate set matching
numbers, `dfsTraversal` returns `[4,3,2,1]`: children pushed in original
order onto the LIFO stack are popped rightmost-first at every composite,
so the leaf sequence is the full reverse of the breadth-first one.
-/
theorem dfs_order_actual :
    dfsTraversal rootNested stdTypeEnum
      = Except.ok [JSVal.num 4, JSVal.num 3, JSVal.num 2, JSVal.num 1] := rfl

/--
C2 counterexample: registering a new predicate `isNull` in the supplied
set does not make the `null` leaf — which that predicate matches — appear
in the traversal result: the engine never consults it.
-/
theorem engine_ignores_added_predicate :
    lookupPred typeEnumWithNull "isNull" = some isNullPred
  ∧ isNullPred JSVal.null = true
  ∧ bfsTraversal (JSVal.arr [JSVal.null]) typeEnumWithNull = Except.ok []
  ∧ dfsTraversal (JSVal.arr [JSVal.null]) typeEnumWithNull = Except.ok [] :=
  ⟨rfl, rfl, rfl, rfl⟩

/--
C2 amended: the engine tests a scalar leaf only against the testers
registered under the four fixed names `isString`, `isNumber`, `isBoolean`,
`isRegExp` (in that order, short-circuiting); two predicate sets that
agree on those four names produce identical traversals, so predicates
added under any other name never affect the result.
-/
theorem traversal_depends_only_on_fixed_predicate_names
    (te te' : TypeEnum) (obj : JSVal)
    (h1 : lookupPred te "isString" = lookupPred te' "isString")
    (h2 : lookupPred te "isNumber" = lookupPred te' "isNumber")
    (h3 : lookupPred te "isBoolean" = lookupPred te' "isBoolean")
    (h4 : lookupPred te "isRegExp" = lookupPred te' "isRegExp") :
    bfsTraversal obj te = bfsTraversal obj te'
  ∧ dfsTraversal obj te = dfsTraversal obj te' :=
  ⟨bfsGo_congr te te' h1 h2 h3 h4 (sizeJ obj) [obj] [],
   dfsGo_congr te te' h1 h2 h3 h4 (sizeJ obj) [obj] []⟩

/--
C2 amended, witness: the default set and the default set extended with
`isNull` agree on the four consulted names, hence traverse identically.
-/
theorem traversal_fixed_names_witness :
    bfsTraversal (JSVal.arr [JSVal.null]) stdTypeEnum
      = bfsTraversal (JSVal.arr [JSVal.null]) typeEnumWithNull
  ∧ dfsTraversal (JSVal.arr [JSVal.null]) stdTypeEnum
      = dfsTraversal (JSVal.arr [JSVal.null]) typeEnumWithNull :=
  traversal_depends_only_on_fixed_predicate_names stdTypeEnum typeEnumWithNull
    (JSVal.arr [JSVal.null]) rfl rfl rfl rfl

/--
C3 counterexample: with a predicate set containing only a number tester,
traversing `["a", true, {}]` does not return the empty sequence — the
engine unconditionally calls `typeEnum.isString` on the first scalar leaf
and throws a TypeError because that property is absent.
-/
theorem missing_predicate_method_raises :
    lookupPred typeEnumOnlyNumber "isNumber" = some isNumberPred
  ∧ lookupPred typeEnumOnlyNumber "isString" = none
  ∧ bfsTraversal (JSVal.arr [JSVal.str "a", JSVal.bool true, JSVal.obj []]) typeEnumOnlyNumber
      = Except.error (TravError.notAFunction "isString") :=
  ⟨rfl, rfl, rfl⟩

/--
C3 amended: when the predicate set registers all four names the engine
queries and only the number tester can match, a leaf of unmatched type is
silently dropped with no error: `["a", true, {}]` yields `[]`.
-/
theorem unmatched_leaves_dropped :
    bfsTraversal (JSVal.arr [JSVal.str "a", JSVal.bool true, JSVal.obj []])
      typeEnumNumberOnlyFour = Except.ok [] := rfl

/--
C4 counterexample: the container built from `["a"]` does not lock onto the
first element's runtime type: pushing `"b"`, whose `typeof` equals that of
`"a"`, throws the number TypeError — the expected type is hard-coded.
-/
theorem push_ignores_inferred_type :
    TypeGuard.construct (CtorArg.arrRef 0) = Except.ok ⟨0⟩
  ∧ storeA.read 0 = [JSVal.str "a"]
  ∧ jsTypeof (JSVal.str "b") = jsTypeof (JSVal.str "a")
  ∧ (TypeGuard.push ⟨0⟩ storeA (JSVal.str "b")).1
      = Except.error (TGError.typeMismatch "number" "string") :=
  ⟨rfl, rfl, rfl, rfl⟩

/--
C4 amended: whatever the initial array holds, the container's expected
element type is the hard-coded "number": push succeeds exactly on elements
of runtime type number and throws the number TypeError on all others.
-/
theorem push_locked_to_number (s : Store) (r : ArrRef) (e : JSVal) :
    (jsTypeof e = "number" → (TypeGuard.push ⟨r⟩ s e).1 = Except.ok ())
  ∧ (jsTypeof e ≠ "number" →
      (TypeGuard.push ⟨r⟩ s e).1
        = Except.error (TGError.typeMismatch "number" (jsTypeof e))) := by
  constructor
  · intro h
    simp [TypeGuard.push, typeGuardCheck, h]
  · intro h
    simp [TypeGuard.push, typeGuardCheck, h]

/-- C4 amended, witness: on the container built over `["a"]`. -/
theorem push_locked_to_number_witness :
    (TypeGuard.push ⟨0⟩ storeA (JSVal.num 1)).1 = Except.ok ()
  ∧ (TypeGuard.push ⟨0⟩ storeA (JSVal.str "b")).1
      = Except.error (TGError.typeMismatch "number" "string") :=
  ⟨(push_locked_to_number storeA 0 (JSVal.num 1)).1 rfl,
   (push_locked_to_number storeA 0 (JSVal.str "b")).2 (by decide)⟩

/--
C5: for the root `[[1,2],[3,4]]` and a predicate set matching numbers,
`bfsTraversal` returns `[1,2,3,4]` — FIFO visitation with children
enqueued in original order.
-/
theorem bfs_order_spec :
    bfsTraversal rootNested stdTypeEnum
      = Except.ok [JSVal.num 1, JSVal.num 2, JSVal.num 3, JSVal.num 4] := rfl

/--
C6: pushing an element whose runtime type is not number throws the
TypeMismatch TypeError and leaves the store — hence the container's
length and every stored element — exactly as before the call.
-/
theorem push_type_mismatch_spec (s : Store) (tg : TypeGuard) (e : JSVal)
    (h : jsTypeof e ≠ "number") :
    (tg.push s e).1 = Except.error (TGError.typeMismatch "number" (jsTypeof e))
  ∧ (tg.push s e).2 = s := by
  constructor <;> simp [TypeGuard.push, typeGuardCheck, h]

/-- C6 witness: `push("x")` on the container over `[10, 20, 30]`. -/
theorem push_type_mismatch_witness :
    (TypeGuard.push tg3 store3 (JSVal.str "x")).1
      = Except.error (TGError.typeMismatch "number" "string")
  ∧ (TypeGuard.push tg3 store3 (JSVal.str "x")).2 = store3 :=
  push_type_mismatch_spec store3 tg3 (JSVal.str "x") (by decide)

/--
C7: for a number element, insertAt accepts exactly the indices
`0 <= index <= length` and removeAt exactly `0 <= index < length`, and
every rejected call leaves the store untouched.
-/
theorem index_bounds_spec (s : Store) (tg : TypeGuard) (i : Int) (e : JSVal)
    (he : jsTypeof e = "number") :
    (exceptIsOk (tg.insertAt s i e).1 = true ↔
      0 ≤ i ∧ i ≤ (TypeGuard.length tg s : Int))
  ∧ (exceptIsOk (tg.removeAt s i).1 = true ↔
      0 ≤ i ∧ i < (TypeGuard.length tg s : Int))
  ∧ (¬(0 ≤ i ∧ i ≤ (TypeGuard.length tg s : Int)) → (tg.insertAt s i e).2 = s)
  ∧ (¬(0 ≤ i ∧ i < (TypeGuard.length tg s : Int)) → (tg.removeAt s i).2 = s) := by
  refine ⟨?_, ?_, ?_, ?_⟩
  · by_cases hb : i < 0 ∨ i > ((s.read tg.data).length : Int)
    · simp [TypeGuard.insertAt, hb, exceptIsOk, TypeGuard.length]
      omega
    · simp [TypeGuard.insertAt, hb, typeGuardCheck, he, exceptIsOk, TypeGuard.length]
      omega
  · by_cases hb : i < 0 ∨ i ≥ ((s.read tg.data).length : Int)
    · simp [TypeGuard.removeAt, hb, exceptIsOk, TypeGuard.length]
      omega
    · simp [TypeGuard.removeAt, hb, exceptIsOk, TypeGuard.length]
      omega
  · intro hout
    have hb : i < 0 ∨ i > ((s.read tg.data).length : Int) := by
      have : TypeGuard.length tg s = (s.read tg.data).length := rfl
      omega
    simp [TypeGuard.insertAt, hb]
  · intro hout
    have hb : i < 0 ∨ i ≥ ((s.read tg.data).length : Int) := by
      have : TypeGuard.length tg s = (s.read tg.data).length := rfl
      omega
    simp [TypeGuard.removeAt, hb]

/--
C7 witness: on the 3-element container, `insertAt(3, 9)` succeeds,
`insertAt(4, 9)` and `removeAt(3)` throw, `removeAt(2)` succeeds, and the
throwing calls do not mutate.
-/
theorem index_bounds_witness :
    exceptIsOk (TypeGuard.insertAt tg3 store3 3 (JSVal.num 9)).1 = true
  ∧ exceptIsOk (TypeGuard.insertAt tg3 store3 4 (JSVal.num 9)).1 = false
  ∧ exceptIsOk (TypeGuard.removeAt tg3 store3 3).1 = false
  ∧ exceptIsOk (TypeGuard.removeAt tg3 store3 2).1 = true
  ∧ (TypeGuard.insertAt tg3 store3 4 (JSVal.num 9)).2 = store3
  ∧ (TypeGuard.removeAt tg3 store3 3).2 = store3 := by
  have h3 := index_bounds_spec store3 tg3 3 (JSVal.num 9) rfl
  have h4 := index_bounds_spec store3 tg3 4 (JSVal.num 9) rfl
  have h2 := index_bounds_spec store3 tg3 2 (JSVal.num 9) rfl
  refine ⟨h3.1.mpr (by decide), ?_, ?_, h2.2.1.mpr (by decide),
    h4.2.2.1 (by decide), h3.2.2.2 (by decide)⟩
  · have := h4.1
    revert this
    cases hx : exceptIsOk (TypeGuard.insertAt tg3 store3 4 (JSVal.num 9)).1
    · intro _; rfl
    · intro hiff
      exact absurd (hiff.mp rfl) (by decide)
  · have := h3.2.1
    revert this
    cases hx : exceptIsOk (TypeGuard.removeAt tg3 store3 3).1
    · intro _; rfl
    · intro hiff
      exact absurd (hiff.mp rfl) (by decide)

/--
C8: cloning allocates an independent backing array: the clone renders the
same `toString` immediately, and — in any store whose view of the
original's array is unchanged — pushing, popping, inserting into or
removing from the clone never changes what the original's array holds.
-/
theorem clone_independent_spec (s : Store) (tg : TypeGuard)
    (h : tg.data < s.arrays.length) :
    ((tg.clone s).1.toStr (tg.clone s).2 = tg.toStr s)
  ∧ ∀ t : Store, t.read tg.data = s.read tg.data →
      (∀ e, (((tg.clone s).1.push t e).2).read tg.data = s.read tg.data)
    ∧ ((((tg.clone s).1.pop t).2).read tg.data = s.read tg.data)
    ∧ (∀ i e, (((tg.clone s).1.insertAt t i e).2).read tg.data = s.read tg.data)
    ∧ (∀ i, (((tg.clone s).1.removeAt t i).2).read tg.data = s.read tg.data) := by
  have hfresh : Store.read (tg.clone s).2 (tg.clone s).1.data = s.read tg.data :=
    lookupArr_append_length s.arrays (s.read tg.data)
  have hne : (tg.clone s).1.data ≠ tg.data := by
    show s.arrays.length ≠ tg.data
    exact ne_of_gt h
  constructor
  · show TypeGuard.toStr _ _ = TypeGuard.toStr _ _
    unfold TypeGuard.toStr
    rw [hfresh]
  · intro t ht
    refine ⟨fun e => ?_, ?_, fun i e => ?_, fun i => ?_⟩
    · rw [push_frame _ _ _ _ hne, ht]
    · rw [pop_frame _ _ _ hne, ht]
    · rw [insertAt_frame _ _ _ _ _ hne, ht]
    · rw [removeAt_frame _ _ _ _ hne, ht]

/--
C8 witness: cloning the `[10, 20, 30]` container, then pushing onto the
clone, leaves the original's array untouched.
-/
theorem clone_independent_witness :
    ((tg3.clone store3).1.toStr (tg3.clone store3).2 = tg3.toStr store3)
  ∧ (((tg3.clone store3).1.push (tg3.clone store3).2 (JSVal.num 99)).2).read tg3.data
      = store3.read tg3.data := by
  have hmain := clone_independent_spec store3 tg3 (by decide)
  exact ⟨hmain.1, (hmain.2 (tg3.clone store3).2 rfl).1 (JSVal.num 99)⟩

/--
C9: pop never throws: on a non-empty container it removes and returns the
last element; on an empty one it returns `undefined` (JavaScript's absent
value) and the backing array stays empty.
-/
theorem pop_total_spec (s : Store) (tg : TypeGuard) :
    (tg.pop s).1 = ((s.read tg.data).getLast?).getD JSVal.undef
  ∧ ((tg.pop s).2).read tg.data = (s.read tg.data).dropLast := by
  cases hc : s.read tg.data with
  | nil => simp [TypeGuard.pop, hc]
  | cons x rest =>
    have hlt : tg.data < s.arrays.length := by
      by_contra hge
      have hnil : s.read tg.data = [] :=
        lookupArr_ge s.arrays tg.data (Nat.le_of_not_lt hge)
      rw [hc] at hnil
      exact List.noConfusion hnil
    constructor
    · simp [TypeGuard.pop, hc]
    · simp only [TypeGuard.pop, hc]
      rw [read_write_self s tg.data _ hlt]

/--
C10: the constructor aliases the caller's array: every container mutation
is visible through the caller's reference, every external overwrite of the
array is visible through length/at/toString, and clone — by contrast —
wraps a different, freshly allocated array.
-/
theorem constructor_aliases_spec (s : Store) (r : ArrRef) (e : JSVal) (l : List JSVal)
    (hr : r < s.arrays.length) (he : jsTypeof e = "number")
    (hne : s.read r ≠ []) :
    TypeGuard.construct (CtorArg.arrRef r) = Except.ok ⟨r⟩
  ∧ ((TypeGuard.push ⟨r⟩ s e).2).read r = s.read r ++ [e]
  ∧ ((TypeGuard.pop ⟨r⟩ s).2).read r = (s.read r).dropLast
  ∧ ((TypeGuard.insertAt ⟨r⟩ s 0 e).2).read r = e :: s.read r
  ∧ ((TypeGuard.removeAt ⟨r⟩ s 0).2).read r = (s.read r).drop 1
  ∧ TypeGuard.length ⟨r⟩ (s.write r l) = l.length
  ∧ TypeGuard.atIndex ⟨r⟩ (s.write r l) 0 = l.getD 0 JSVal.undef
  ∧ TypeGuard.toStr ⟨r⟩ (s.write r l)
      = "[" ++ String.intercalate ", " (l.map jsJoinElem) ++ "]"
  ∧ (TypeGuard.clone ⟨r⟩ s).1.data ≠ r := by
  have hlen : 0 < ((s.read r).length : Int) := by
    have := List.length_pos.mpr hne
    omega
  have hok : typeGuardCheck e "number" = Except.ok () := by
    simp [typeGuardCheck, he]
  refine ⟨rfl, ?_, ?_, ?_, ?_, ?_, ?_, ?_, ?_⟩
  · simp only [TypeGuard.push, hok]
    rw [read_write_self s r _ hr]
  · cases hc : s.read r with
    | nil => exact absurd hc hne
    | cons x rest =>
      simp only [TypeGuard.pop, hc]
      rw [read_write_self s r _ hr]
  · simp only [TypeGuard.insertAt]
    rw [if_neg (by omega)]
    simp only [hok]
    rw [read_write_self s r _ hr]
    simp
  · simp only [TypeGuard.removeAt]
    rw [if_neg (by omega)]
    rw [read_write_self s r _ hr]
    simp
  · show (Store.read _ r).length = l.length
    rw [read_write_self s r l hr]
  · unfold TypeGuard.atIndex
    rw [if_neg (by omega), read_write_self s r l hr]
    rfl
  · unfold TypeGuard.toStr
    rw [read_write_self s r l hr]
  · show s.arrays.length ≠ r
    exact ne_of_gt hr

/--
C10 witness: on the caller array `[10, 20, 30]` at reference 0.
-/
theorem constructor_aliases_witness :
    ((TypeGuard.push ⟨0⟩ store3 (JSVal.num 5)).2).read 0
      = [JSVal.num 10, JSVal.num 20, JSVal.num 30, JSVal.num 5]
  ∧ TypeGuard.length ⟨0⟩ (store3.write 0 [JSVal.num 7]) = 1
  ∧ (TypeGuard.clone ⟨0⟩ store3).1.data ≠ 0 := by
  have hmain := constructor_aliases_spec store3 0 (JSVal.num 5) [JSVal.num 7]
    (by decide) rfl (List.cons_ne_nil _ _)
  exact ⟨hmain.2.1, hmain.2.2.2.2.2.1, hmain.2.2.2.2.2.2.2.2⟩

end TypeIt
